import Mathlib

/-!
Verification development for the Sipal 4BSC bot.

The bot automates a daily quest cycle: per account it logs in over HTTP,
checks task status, performs up to two create actions, commits proof of
each action on-chain, and tracks a per-account cooldown.  The repository
ships the bot in two files; the current version (the unnamed source file,
second program) routes every HTTP call through `requestWithRetry`, every
on-chain write through `sendRawTransaction` (fixed 4-byte selectors,
staged timeouts), and the run loop through `main`.  `index.js` carries an
older on-chain path, `sendTransactionWithRetry`, which is embedded
separately where a claim refers to it.

The embedding is a shallow one: each asynchronous primitive (an HTTP
call, a gas estimate, a broadcast, a receipt wait, a re-login) is
represented by an environment value describing its outcome on a given
attempt, and the control flow of the source — its try/catch structure,
retry loops, fallbacks and early returns — is translated into total Lean
functions over those environments.  JavaScript exception propagation is
made explicit with `Except`: a function that could let an exception
escape would return `Except.error`; timers (`sleep`, backoff) are
recorded as lists of waited milliseconds.
-/

set_option maxRecDepth 4000

namespace Sipal

/-! ### Application payload model

An axios response body `res.data` as the source reads it: an
application-level `code`, an optional `message`, and an optional nested
`data` object from which the source reads `id`, `is_create_request`,
`is_create_agent` and `message`.  Absent JSON fields are `Option.none`. -/

structure RespData where
  id : Option Nat
  isCreateRequest : Bool
  isCreateAgent : Bool
  message : Option String
deriving DecidableEq

structure ApiResponse where
  code : Int
  message : Option String
  data : Option RespData
deriving DecidableEq

/-! ### Resilient request executor (`requestWithRetry`, identical in both files)

Source: unnamed file lines 544-592 and index.js lines 165-213.  Each loop
attempt issues the call; the outcome of that call, of a possible re-login
and of a possible reissued call are drawn from a `ReqAttemptEnv`. -/

/-- Errors a request can throw, as the catch block classifies them:
`auth` is an HTTP 401/403 response error, `net` is a no-response or
reset/timeout/proxy error, `other` is any remaining transport error, and
`reloginFailed` is the synthetic `Error` the source constructs when the
re-login after a session-expired payload fails (it has no `response`
field, so the classifier treats it as a network error). -/
inductive JsErr where
  | auth
  | net
  | other
  | reloginFailed
deriving DecidableEq

/-- Outcome of one HTTP call: it resolves with a payload, or it rejects
with an error of one of the three transport classes. -/
inductive CallOutcome where
  | ok (r : ApiResponse)
  | errAuth
  | errNet
  | errOther
deriving DecidableEq

/-- Environment of a single loop attempt of `requestWithRetry`: the
outcome of the initial call, of the first re-login and first reissue
(used on the session-expired path and on the 401/403 path), and of the
second re-login and reissue (reachable only when a reissue after a
session-expired payload itself rejects with 401/403). -/
structure ReqAttemptEnv where
  call : CallOutcome
  login1 : Bool
  reissue1 : CallOutcome
  login2 : Bool
  reissue2 : CallOutcome
deriving DecidableEq

/-- How one loop attempt of `requestWithRetry` ends: a value is
returned, an error escapes the whole function, or control reaches the
retry tail of the catch block carrying the caught error. -/
inductive AttemptOut where
  | done (r : ApiResponse)
  | threw (e : JsErr)
  | retry (e : JsErr)
deriving DecidableEq

/-- The two session sentinels checked on a resolved payload
(source line 552). -/
def sessionExpiredMsg (r : ApiResponse) : Bool :=
  r.message == some "TOKEN_INVALID" || r.message == some "Session expired"

/-- One loop attempt of `requestWithRetry` (source lines 546-590).
On a resolved payload carrying a session sentinel the source re-logs:
on success it returns the reissued call (whose own rejection falls into
the same catch block); on failure it throws a synthetic error that the
same catch block then catches and sends down the retry tail.  On a
401/403 rejection the source re-logs inside the catch block: on success
it returns the reissued call (whose rejection now escapes the function);
on failure it rethrows the caught 401/403 error. -/
def attemptEval (a : ReqAttemptEnv) : AttemptOut :=
  match a.call with
  | CallOutcome.ok r =>
    if sessionExpiredMsg r then
      if a.login1 then
        match a.reissue1 with
        | CallOutcome.ok r2 => AttemptOut.done r2
        | CallOutcome.errAuth =>
          if a.login2 then
            match a.reissue2 with
            | CallOutcome.ok r3 => AttemptOut.done r3
            | CallOutcome.errAuth => AttemptOut.threw JsErr.auth
            | CallOutcome.errNet => AttemptOut.threw JsErr.net
            | CallOutcome.errOther => AttemptOut.threw JsErr.other
          else AttemptOut.threw JsErr.auth
        | CallOutcome.errNet => AttemptOut.retry JsErr.net
        | CallOutcome.errOther => AttemptOut.retry JsErr.other
      else AttemptOut.retry JsErr.reloginFailed
    else AttemptOut.done r
  | CallOutcome.errAuth =>
    if a.login1 then
      match a.reissue1 with
      | CallOutcome.ok r2 => AttemptOut.done r2
      | CallOutcome.errAuth => AttemptOut.threw JsErr.auth
      | CallOutcome.errNet => AttemptOut.threw JsErr.net
      | CallOutcome.errOther => AttemptOut.threw JsErr.other
    else AttemptOut.threw JsErr.auth
  | CallOutcome.errNet => AttemptOut.retry JsErr.net
  | CallOutcome.errOther => AttemptOut.retry JsErr.other

deriving instance DecidableEq for Except

/-- Result of a whole `requestWithRetry` call: the value returned or the
error propagated (`Except.ok none` is the `undefined` returned when the
loop body never runs, i.e. a zero budget), the number of loop attempts
executed, and the backoff delays slept between attempts, in order. -/
structure ReqResult where
  result : Except JsErr (Option ApiResponse)
  attempts : Nat
  delays : List Nat
deriving DecidableEq

/-- The retry loop of `requestWithRetry` (source lines 545-591): `i` is
the loop index, `fuel` the remaining iterations (`retries - i`).  A
retry-tail error with attempts remaining sleeps `(i + 1) * 3000` ms and
continues; on the last attempt it is rethrown. -/
def reqAux (env : Nat → ReqAttemptEnv) (retries : Nat) : Nat → Nat → ReqResult
  | _, 0 => ⟨Except.ok none, 0, []⟩
  | i, fuel + 1 =>
    match attemptEval (env i) with
    | AttemptOut.done r => ⟨Except.ok (some r), 1, []⟩
    | AttemptOut.threw e => ⟨Except.error e, 1, []⟩
    | AttemptOut.retry e =>
      if i < retries - 1 then
        let rest := reqAux env retries (i + 1) fuel
        ⟨rest.result, rest.attempts + 1, (i + 1) * 3000 :: rest.delays⟩
      else ⟨Except.error e, 1, []⟩

/-- Default retry budget of `requestWithRetry` (source line 544). -/
def requestRetriesDefault : Nat := 5

def requestWithRetry (env : Nat → ReqAttemptEnv) (retries : Nat) : ReqResult :=
  reqAux env retries 0 retries

/-! ### Chain submitters

`sendRawTransaction` (unnamed file lines 637-702) is the current
submitter: calldata is the fixed 4-byte selector followed by the
ABI-encoded parameters, gas estimation is raced against a 10 s timer
with staged fallbacks, and broadcast/receipt waits run under their own
timers.  `sendTransactionWithRetry` (index.js lines 215-255) is the
older submitter: contract-method call, no timers, a single 500000
fallback.  Both loops classify any error whose code is CALL_EXCEPTION or
whose message contains the revert marker as terminal. -/

/-- Outcome of a gas estimation: a successful estimate, the 10-second
race timing out, a simulated revert, or any other estimation error. -/
inductive EstOutcome where
  | ok (gas : Nat)
  | timeout
  | revert
  | err
deriving DecidableEq

/-- Outcome of broadcasting the transaction: it resolves, or it rejects
with a revert-classified error or with any other error (which includes
the 30-second send timer firing). -/
inductive SendOutcome where
  | ok
  | throwRevert
  | throwOther
deriving DecidableEq

/-- Outcome of waiting for the receipt: a mined receipt with its status
field, a revert-classified rejection, or any other rejection (which
includes the 60-second wait timer firing). -/
inductive WaitOutcome where
  | receipt (status : Nat)
  | throwRevert
  | throwOther
deriving DecidableEq

/-- Error classes the catch block of a submitter distinguishes. -/
inductive ChainErr where
  | revert
  | other
deriving DecidableEq

/-- Environment of one loop attempt of a chain submitter: whether the
parameter encoding succeeds, and the outcomes of the three on-chain
stages. -/
structure ChainAttemptEnv where
  encodeOk : Bool
  est : EstOutcome
  send : SendOutcome
  wait : WaitOutcome
deriving DecidableEq

/-- The three stage timeouts of `sendRawTransaction`
(source lines 657, 673, 678), in milliseconds. -/
def GAS_ESTIMATE_TIMEOUT_MS : Nat := 10000

def TX_SEND_TIMEOUT_MS : Nat := 30000

def TX_WAIT_TIMEOUT_MS : Nat := 60000

/-- Gas limit chosen by `sendRawTransaction` after the estimation stage
(source lines 654-670): a successful estimate gains 20% headroom in
BigInt arithmetic (`est * 120 / 100`, truncating); the timeout falls
back to 300000; a simulated revert aborts (`none`, the source returns
false); any other estimation error falls back to 200000. -/
def gasAfterEst : EstOutcome → Option Nat
  | EstOutcome.ok g => some (g * 120 / 100)
  | EstOutcome.timeout => some 300000
  | EstOutcome.revert => none
  | EstOutcome.err => some 200000

/-- Gas limit chosen by the older `sendTransactionWithRetry`
(index.js lines 219-231): 20% headroom on success, abort on a simulated
revert, and a single 500000 fallback on every other estimation error
(there is no estimation timer in this version). -/
def gasAfterEstDefault : EstOutcome → Option Nat
  | EstOutcome.ok g => some (g * 120 / 100)
  | EstOutcome.timeout => some 500000
  | EstOutcome.revert => none
  | EstOutcome.err => some 500000

/-- The try block of one `sendRawTransaction` attempt (source lines
639-685): `Except.ok b` means the block returned `b`, `Except.error e`
means it threw `e` into the catch block.  A simulated revert during
estimation returns false from inside the inner catch; a mined receipt
returns true exactly when its status is 1. -/
def chainTryRaw (a : ChainAttemptEnv) : Except ChainErr Bool :=
  if a.encodeOk = false then Except.error ChainErr.other
  else
    match gasAfterEst a.est with
    | none => Except.ok false
    | some _ =>
      match a.send with
      | SendOutcome.throwRevert => Except.error ChainErr.revert
      | SendOutcome.throwOther => Except.error ChainErr.other
      | SendOutcome.ok =>
        match a.wait with
        | WaitOutcome.receipt s => Except.ok (s == 1)
        | WaitOutcome.throwRevert => Except.error ChainErr.revert
        | WaitOutcome.throwOther => Except.error ChainErr.other

/-- The try block of one `sendTransactionWithRetry` attempt (index.js
lines 217-237): no parameter-encoding stage, and `tx.wait()` is not
followed by a status check — a resolved wait returns true. -/
def chainTryContract (a : ChainAttemptEnv) : Except ChainErr Bool :=
  match gasAfterEstDefault a.est with
  | none => Except.ok false
  | some _ =>
    match a.send with
    | SendOutcome.throwRevert => Except.error ChainErr.revert
    | SendOutcome.throwOther => Except.error ChainErr.other
    | SendOutcome.ok =>
      match a.wait with
      | WaitOutcome.receipt _ => Except.ok true
      | WaitOutcome.throwRevert => Except.error ChainErr.revert
      | WaitOutcome.throwOther => Except.error ChainErr.other

/-- Result of a whole submitter call: the boolean it resolves with (or
the error it would reject with, were one ever to escape the catch
block), and the number of loop attempts executed. -/
structure ChainLoop where
  result : Except ChainErr Bool
  attempts : Nat
deriving DecidableEq

/-- The shared retry loop shape of both submitters (unnamed file lines
638-701, index.js lines 216-254): a revert-classified error returns
false at once; any other error retries after 5 s while `i < retries - 1`
and otherwise returns false; falling out of the loop returns false. -/
def chainAux (tryF : ChainAttemptEnv → Except ChainErr Bool)
    (env : Nat → ChainAttemptEnv) (retries : Int) : Nat → Nat → ChainLoop
  | _, 0 => ⟨Except.ok false, 0⟩
  | i, fuel + 1 =>
    match tryF (env i) with
    | Except.ok b => ⟨Except.ok b, 1⟩
    | Except.error ChainErr.revert => ⟨Except.ok false, 1⟩
    | Except.error ChainErr.other =>
      if (i : Int) < retries - 1 then
        let rest := chainAux tryF env retries (i + 1) fuel
        ⟨rest.result, rest.attempts + 1⟩
      else ⟨Except.ok false, 1⟩

/-- What the catch block turns a caught attempt outcome into: a returned
value stands, and every caught error becomes a returned false (either at
once for a revert or after the budget runs out). -/
def catchOut : Except ChainErr Bool → Except ChainErr Bool
  | Except.ok b => Except.ok b
  | Except.error _ => Except.ok false

/-- Default retry budget of both submitters. -/
def chainRetriesDefault : Int := 3

def sendTransactionWithRetry (env : Nat → ChainAttemptEnv) (retries : Int) : ChainLoop :=
  chainAux chainTryContract env retries 0 retries.toNat

/-! ### Calldata construction of `sendRawTransaction`

Source lines 640-651: the parameters are ABI-encoded without a selector
and the calldata is the fixed selector with the encoded parameters
appended (the hex prefix of the parameter string is stripped before the
join; here both sides are byte lists).  The encoders below
implement the standard ABI head/tail layout for the two parameter-type
lists the bot uses, `(uint256, string)` and `(uint256, string, string)`. -/

/-- A 32-byte big-endian ABI word. -/
def beWord (n : Nat) : List Nat :=
  (List.range 32).map (fun i => n / 256 ^ (31 - i) % 256)

/-- Zero-pad a byte string on the right to a multiple of 32 bytes. -/
def pad32 (bs : List Nat) : List Nat :=
  bs ++ List.replicate ((32 - bs.length % 32) % 32) 0

/-- ABI encoding of `(uint256, string)`: the head holds the integer and
the tail offset (64), the tail holds the string length and its padded
bytes. -/
def abiEncodeUintString (n : Nat) (s : List Nat) : List Nat :=
  beWord n ++ beWord 64 ++ beWord s.length ++ pad32 s

/-- ABI encoding of `(uint256, string, string)`: the head holds the
integer and the two tail offsets (96 and 96 plus the size of the first
tail), then the two length-prefixed padded strings. -/
def abiEncodeUintStringString (n : Nat) (s1 s2 : List Nat) : List Nat :=
  let tail1 := beWord s1.length ++ pad32 s1
  beWord n ++ beWord 96 ++ beWord (96 + tail1.length) ++ tail1 ++
    beWord s2.length ++ pad32 s2

/-- Standard UTF-8 encoding of one character. -/
def utf8Bytes (c : Char) : List Nat :=
  let n := c.toNat
  if n < 128 then [n]
  else if n < 2048 then [192 + n / 64, 128 + n % 64]
  else if n < 65536 then [224 + n / 4096, 128 + n / 64 % 64, 128 + n % 64]
  else [240 + n / 262144, 128 + n / 4096 % 64, 128 + n / 64 % 64, 128 + n % 64]

/-- UTF-8 bytes of a source string, as the ABI coder sees it. -/
def strBytes (s : String) : List Nat :=
  s.data.flatMap utf8Bytes

structure FunctionSelectors where
  SUBMIT_AGENT : List Nat
  SUBMIT_REQUEST : List Nat

/-- The fixed selectors of the unnamed file, lines 404-408:
SUBMIT_AGENT is 0x9897934c, SUBMIT_REQUEST is 0xc9a5fadf.  They are
literal constants taken from observed transactions, not derived from any
function name. -/
def FUNCTION_SELECTORS : FunctionSelectors :=
  ⟨[0x98, 0x97, 0x93, 0x4c], [0xc9, 0xa5, 0xfa, 0xdf]⟩

/-- Calldata of `sendRawTransaction` (source line 645): the selector
with the encoded parameters appended. -/
def sendRawCalldata (selector params : List Nat) : List Nat :=
  selector ++ params

/-- Result of a whole `sendRawTransaction` call, with the calldata the
attempt loop places in every transaction request. -/
structure ChainResult where
  result : Except ChainErr Bool
  attempts : Nat
  calldata : List Nat
deriving DecidableEq

def sendRawTransaction (selector params : List Nat)
    (env : Nat → ChainAttemptEnv) (retries : Int) : ChainResult :=
  let r := chainAux chainTryRaw env retries 0 retries.toNat
  ⟨r.result, r.attempts, sendRawCalldata selector params⟩

/-- Convenience reading of a submitter result as the boolean the
orchestrator receives. -/
def chainAccepted (c : ChainResult) : Bool :=
  match c.result with
  | Except.ok true => true
  | _ => false

/-! ### Task orchestrator (`runDailyTasks`, unnamed file lines 731-832)

Per cycle: login; verify status over `requestWithRetry`; for each of the
two actions, if not already done, one create call over
`requestWithRetry`, and when it returns code 0 with a truthy id, one
`sendRawTransaction` submission; finally a best-effort points read from
the free-text message of the verify payload. -/

/-- The guard on a create response (source lines 759 and 790):
application code 0 and a truthy `data.id` (a missing or zero id fails
the JavaScript truthiness test). -/
def createCallOk (r : ApiResponse) : Bool :=
  r.code == 0 &&
    (match r.data with
     | some d =>
       match d.id with
       | some n => n != 0
       | none => false
     | none => false)

/-- The created-object id the orchestrator forwards on-chain. -/
def respId (r : ApiResponse) : Nat :=
  match r.data with
  | some d => d.id.getD 0
  | none => 0

structure SubmissionRec where
  selector : List Nat
  calldata : List Nat
deriving DecidableEq

/-- Environment of one `runDailyTasks` cycle: the login outcome, one
request environment per HTTP call, one chain environment per submission,
and the randomly drawn texts (the agent description is drawn once for
the API payload and again for the on-chain payload, as in the source). -/
structure TaskEnv where
  loginOk : Bool
  verifyEnv : Nat → ReqAttemptEnv
  title : String
  createReqEnv : Nat → ReqAttemptEnv
  reqChainEnv : Nat → ChainAttemptEnv
  agentName : String
  agentDescApi : String
  agentDescChain : String
  createAgentEnv : Nat → ReqAttemptEnv
  agentChainEnv : Nat → ChainAttemptEnv

structure TaskResult where
  success : Bool
  points : Option String
  status : String
  submissions : List SubmissionRec
deriving DecidableEq

/-- One action of the orchestrator (source lines 751-812): skipped when
already done; a create call that throws aborts the cycle (`Except.error`
reaches the outer catch); a create with code 0 and a truthy id leads to
one on-chain submission whose boolean decides whether the action counts;
any other create response is logged and skipped.  The submissions issued
are carried on both branches. -/
def actionStep (notDone : Bool) (createEnv : Nat → ReqAttemptEnv)
    (selector : List Nat) (encodeParams : Nat → List Nat)
    (chainEnv : Nat → ChainAttemptEnv) :
    Except (List SubmissionRec) (Nat × List SubmissionRec) :=
  if notDone = false then Except.ok (0, [])
  else
    match (requestWithRetry createEnv requestRetriesDefault).result with
    | Except.error _ => Except.error []
    | Except.ok none => Except.error []
    | Except.ok (some res) =>
      if createCallOk res then
        let tx := sendRawTransaction selector (encodeParams (respId res))
          chainEnv chainRetriesDefault
        match tx.result with
        | Except.error _ => Except.error [⟨selector, tx.calldata⟩]
        | Except.ok accepted =>
          Except.ok ((if accepted then 1 else 0), [⟨selector, tx.calldata⟩])
      else Except.ok (0, [])

/-- The submissions carried by an action outcome, on either branch. -/
def actionSubs : Except (List SubmissionRec) (Nat × List SubmissionRec) → List SubmissionRec
  | Except.ok out => out.2
  | Except.error subs => subs

/-- The digit-run scanner behind the points regex of source line 819
(first digit run followed by optional whitespace and a case-insensitive
pts marker). -/
def ptsMarker (cs : List Char) : Bool :=
  match cs with
  | p :: t :: s :: _ => p.toLower == 'p' && t.toLower == 't' && s.toLower == 's'
  | _ => false

def findPtsAux : List Char → Option (List Char)
  | [] => none
  | c :: rest =>
    if c.isDigit then
      let ds := c :: rest.takeWhile Char.isDigit
      let after := rest.dropWhile Char.isDigit
      if ptsMarker (after.dropWhile Char.isWhitespace) then some ds
      else findPtsAux rest
    else findPtsAux rest

/-- Best-effort points extraction from the message of the verify payload
(source lines 815-823): the placeholder is a dash. -/
def extractPoints : Option String → String
  | none => "-"
  | some s =>
    match findPtsAux s.data with
    | some ds => String.mk ds
    | none => "-"

/-- One full cycle (source lines 731-832).  A failed login returns at
once; a throwing verify or create call lands in the outer catch and
fails the cycle with status Error; otherwise the cycle succeeds and the
status is Work Done exactly when some action was performed. -/
def runDailyTasks (env : TaskEnv) : TaskResult :=
  if env.loginOk = false then ⟨false, none, "Login Failed", []⟩
  else
    match (requestWithRetry env.verifyEnv requestRetriesDefault).result with
    | Except.error _ => ⟨false, none, "Error", []⟩
    | Except.ok none => ⟨false, none, "Error", []⟩
    | Except.ok (some taskRes) =>
      let taskData := taskRes.data
      let isRequestDone := (taskData.map RespData.isCreateRequest).getD false
      let isAgentDone := (taskData.map RespData.isCreateAgent).getD false
      match actionStep (!isRequestDone) env.createReqEnv
          FUNCTION_SELECTORS.SUBMIT_REQUEST
          (fun n => abiEncodeUintString n (strBytes env.title))
          env.reqChainEnv with
      | Except.error subs => ⟨false, none, "Error", subs⟩
      | Except.ok (p1, subs1) =>
        match actionStep (!isAgentDone) env.createAgentEnv
            FUNCTION_SELECTORS.SUBMIT_AGENT
            (fun n => abiEncodeUintStringString n (strBytes env.agentName)
              (strBytes env.agentDescChain))
            env.agentChainEnv with
        | Except.error subs2 => ⟨false, none, "Error", subs1 ++ subs2⟩
        | Except.ok (p2, subs2) =>
          ⟨true, some (extractPoints (taskData.bind RespData.message)),
            if 0 < p1 + p2 then "Work Done" else "Already Done",
            subs1 ++ subs2⟩

/-! ### Cooldown store and run loop (`WalletDB` lines 472-493, `main`
lines 881-902 of the unnamed file; identical in index.js) -/

abbrev Store := List (String × Nat)

/-- Case normalization applied to account identities
(`address.toLowerCase()`). -/
def toLowerCase (s : String) : String :=
  String.mk (s.data.map Char.toLower)

/-- JavaScript object property write: replace the key if present, add it
otherwise. -/
def dbSet : Store → String → Nat → Store
  | [], k, v => [(k, v)]
  | (k0, v0) :: rest, k, v =>
    if k0 = k then (k, v) :: rest else (k0, v0) :: dbSet rest k v

/-- `WalletDB.getNextRunTime` (line 488): the stored value under the
lowercased identity, defaulting to 0. -/
def getNextRunTime (db : Store) (addr : String) : Nat :=
  (List.lookup (toLowerCase addr) db).getD 0

/-- `WalletDB.updateNextRunTime` (lines 489-492), persistence elided. -/
def updateNextRunTime (db : Store) (addr : String) (t : Nat) : Store :=
  dbSet db (toLowerCase addr) t

/-- Environment of one account iteration of `main`: the identity, the
clock reading at the cooldown gate, the cycle environment, and the clock
reading at the update after a successful cycle (the second reading is
never earlier than the first). -/
structure AccountStepEnv where
  addr : String
  nowCheck : Nat
  taskEnv : TaskEnv
  nowUpdate : Nat

inductive SummaryRow where
  | skipped (nextRun : Nat)
  | done (points : Option String) (status : String) (nextRun : Nat)
  | failed
deriving DecidableEq

/-- One account iteration of `main` (source lines 885-902): the cooldown
gate `continue`s past the rest of the body — including the 2000 ms
inter-account sleep — when the stored time is still in the future;
otherwise the cycle runs, a successful cycle writes `now + interval`
back to the store, and the 2000 ms sleep is awaited on both the success
and the failure path.  The third component lists the milliseconds slept
after this account. -/
def processAccount (db : Store) (e : AccountStepEnv) (interval : Nat) :
    Store × SummaryRow × List Nat :=
  let nextRun := getNextRunTime db e.addr
  if e.nowCheck < nextRun then (db, SummaryRow.skipped nextRun, [])
  else
    let res := runDailyTasks e.taskEnv
    if res.success then
      (updateNextRunTime db e.addr (e.nowUpdate + interval),
        SummaryRow.done res.points res.status (e.nowUpdate + interval),
        [2000])
    else (db, SummaryRow.failed, [2000])

/-! ### Claim-side definitions -/

/-- Revert detection as the claim describes it, over one attempt
environment of `sendRawTransaction`: a simulated revert during
estimation, a revert-classified rejection at broadcast or while waiting,
or a mined receipt whose status is not 1. -/
def revertDetectedRaw (a : ChainAttemptEnv) : Prop :=
  a.encodeOk = true ∧
    (a.est = EstOutcome.revert ∨
      (a.est ≠ EstOutcome.revert ∧
        (a.send = SendOutcome.throwRevert ∨
          (a.send = SendOutcome.ok ∧
            (a.wait = WaitOutcome.throwRevert ∨
              ∃ s, a.wait = WaitOutcome.receipt s ∧ s ≠ 1)))))

/-- Follows the claim wording for the action accounting: an action
counts as performed only if its create call succeeds (code 0 and a
truthy created id) and its on-chain submission succeeds; the two actions
are counted independently. -/
def specPerformedCount (env : TaskEnv) (vres rres ares : ApiResponse) : Nat :=
  (if (!((vres.data.map RespData.isCreateRequest).getD false)) &&
      createCallOk rres &&
      chainAccepted (sendRawTransaction FUNCTION_SELECTORS.SUBMIT_REQUEST
        (abiEncodeUintString (respId rres) (strBytes env.title))
        env.reqChainEnv chainRetriesDefault)
   then 1 else 0) +
  (if (!((vres.data.map RespData.isCreateAgent).getD false)) &&
      createCallOk ares &&
      chainAccepted (sendRawTransaction FUNCTION_SELECTORS.SUBMIT_AGENT
        (abiEncodeUintStringString (respId ares) (strBytes env.agentName)
          (strBytes env.agentDescChain))
        env.agentChainEnv chainRetriesDefault)
   then 1 else 0)

/-! ### Concrete inputs used by witnesses and counterexamples -/

def plainResp : ApiResponse := ⟨0, none, none⟩

def expiredResp : ApiResponse := ⟨0, some "Session expired", none⟩

/-- A request attempt whose call resolves with the given payload and
whose side paths are never taken. -/
def reqCallOk (r : ApiResponse) : ReqAttemptEnv :=
  ⟨CallOutcome.ok r, false, CallOutcome.errOther, false, CallOutcome.errOther⟩

/-- Attempt 0 resolves with a session-expired payload and the re-login
fails; every later attempt resolves cleanly. -/
def c3CounterEnv : Nat → ReqAttemptEnv := fun i =>
  if i = 0 then ⟨CallOutcome.ok expiredResp, false, CallOutcome.errOther,
    false, CallOutcome.errOther⟩
  else reqCallOk plainResp

/-- Every attempt resolves with a session-expired payload and every
re-login fails. -/
def allExpiredNoRelogin : Nat → ReqAttemptEnv := fun _ =>
  ⟨CallOutcome.ok expiredResp, false, CallOutcome.errOther, false,
    CallOutcome.errOther⟩

/-- Every attempt rejects with a network-class error. -/
def allNetFail : Nat → ReqAttemptEnv := fun _ =>
  ⟨CallOutcome.errNet, false, CallOutcome.errOther, false, CallOutcome.errOther⟩

def chainAllOk : Nat → ChainAttemptEnv := fun _ =>
  ⟨true, EstOutcome.ok 100000, SendOutcome.ok, WaitOutcome.receipt 1⟩

def chainEstRevert : Nat → ChainAttemptEnv := fun _ =>
  ⟨true, EstOutcome.revert, SendOutcome.ok, WaitOutcome.receipt 1⟩

def chainWaitRevert : Nat → ChainAttemptEnv := fun _ =>
  ⟨true, EstOutcome.ok 100000, SendOutcome.ok, WaitOutcome.throwRevert⟩

def respWithId (n : Nat) : ApiResponse :=
  ⟨0, none, some ⟨some n, false, false, none⟩⟩

/-- Verify payload reporting both actions not yet done. -/
def verifyNotDone : ApiResponse :=
  ⟨0, none, some ⟨none, false, false, none⟩⟩

/-- Verify payload reporting the request done and the agent not done. -/
def verifyReqDone : ApiResponse :=
  ⟨0, none, some ⟨none, true, false, none⟩⟩

/-- The end-to-end scenario of the spec: both actions pending, create
calls return ids 42 and 99, the request submission is mined with status
1, the agent submission rejects as a revert. -/
def c4Env : TaskEnv where
  loginOk := true
  verifyEnv := fun _ => reqCallOk verifyNotDone
  title := "t"
  createReqEnv := fun _ => reqCallOk (respWithId 42)
  reqChainEnv := chainAllOk
  agentName := "n"
  agentDescApi := "d"
  agentDescChain := "d"
  createAgentEnv := fun _ => reqCallOk (respWithId 99)
  agentChainEnv := chainWaitRevert

/-- A cycle performing only the agent action, with created id 7. -/
def c5Env : TaskEnv where
  loginOk := true
  verifyEnv := fun _ => reqCallOk verifyReqDone
  title := "t"
  createReqEnv := fun _ => reqCallOk plainResp
  reqChainEnv := chainAllOk
  agentName := "n"
  agentDescApi := "d"
  agentDescChain := "d"
  createAgentEnv := fun _ => reqCallOk (respWithId 7)
  agentChainEnv := chainAllOk

def c5Sub : SubmissionRec :=
  ⟨FUNCTION_SELECTORS.SUBMIT_AGENT,
    FUNCTION_SELECTORS.SUBMIT_AGENT ++
      abiEncodeUintStringString 7 (strBytes "n") (strBytes "d")⟩

/-- A cycle whose login fails. -/
def tenvLoginFail : TaskEnv where
  loginOk := false
  verifyEnv := fun _ => reqCallOk plainResp
  title := ""
  createReqEnv := fun _ => reqCallOk plainResp
  reqChainEnv := chainAllOk
  agentName := ""
  agentDescApi := ""
  agentDescChain := ""
  createAgentEnv := fun _ => reqCallOk plainResp
  agentChainEnv := chainAllOk

/-- A store holding one identity with next-run time 100. -/
def c9Db : Store := [("0xa", 100)]

/-- An account iteration arriving before its stored next-run time (the
identity differs from the stored key only by case). -/
def c9Step : AccountStepEnv := ⟨"0xA", 50, tenvLoginFail, 50⟩

/-- An account iteration at an eligible time whose cycle fails. -/
def c9StepRun : AccountStepEnv := ⟨"0xb", 50, tenvLoginFail, 60⟩

/-- An account iteration at an eligible time, used for the cooldown
witnesses. -/
def c7Step : AccountStepEnv := ⟨"0xa", 150, tenvLoginFail, 160⟩

/-! ### Helper lemmas on the chain submitter loop -/

theorem chainAux_isOk (tryF : ChainAttemptEnv → Except ChainErr Bool)
    (env : Nat → ChainAttemptEnv) (retries : Int) :
    ∀ (fuel i : Nat), ∃ b, (chainAux tryF env retries i fuel).result = Except.ok b := by
  intro fuel
  induction fuel with
  | zero => intro i; exact ⟨false, rfl⟩
  | succ f ih =>
    intro i
    cases h : tryF (env i) with
    | ok b => exact ⟨b, by simp [chainAux, h]⟩
    | error e =>
      cases e with
      | revert => exact ⟨false, by simp [chainAux, h]⟩
      | other =>
        by_cases hc : (i : Int) < retries - 1
        · obtain ⟨b, hb⟩ := ih (i + 1)
          exact ⟨b, by simp [chainAux, h, hc, hb]⟩
        · exact ⟨false, by simp [chainAux, h, hc]⟩

theorem chainAux_stop (tryF : ChainAttemptEnv → Except ChainErr Bool)
    (env : Nat → ChainAttemptEnv) (R : Nat) :
    ∀ (k i fuel : Nat), i + fuel = R → i + k < R →
      (∀ j, j < k → tryF (env (i + j)) = Except.error ChainErr.other) →
      tryF (env (i + k)) ≠ Except.error ChainErr.other →
      chainAux tryF env (R : Int) i fuel =
        ⟨catchOut (tryF (env (i + k))), k + 1⟩ := by
  intro k
  induction k with
  | zero =>
    intro i fuel hfuel hlt _ hstop
    obtain ⟨f, rfl⟩ : ∃ f, fuel = f + 1 := ⟨fuel - 1, by omega⟩
    rw [Nat.add_zero] at hstop ⊢
    cases h : tryF (env i) with
    | ok b => simp [chainAux, h, catchOut]
    | error e =>
      cases e with
      | revert => simp [chainAux, h, catchOut]
      | other => exact absurd h hstop
  | succ k ih =>
    intro i fuel hfuel hlt htrans hstop
    obtain ⟨f, rfl⟩ : ∃ f, fuel = f + 1 := ⟨fuel - 1, by omega⟩
    have h0 : tryF (env i) = Except.error ChainErr.other := by
      have := htrans 0 (Nat.succ_pos k)
      rwa [Nat.add_zero] at this
    have hc : (i : Int) < (R : Int) - 1 := by omega
    have hgoal : i + (k + 1) = i + 1 + k := by omega
    rw [hgoal] at hstop ⊢
    have hrest := ih (i + 1) f (by omega) (by omega)
      (fun j hj => by
        have := htrans (j + 1) (by omega)
        rwa [show i + (j + 1) = i + 1 + j by omega] at this)
      hstop
    have hstep : chainAux tryF env (R : Int) i (f + 1) =
        ⟨(chainAux tryF env (R : Int) (i + 1) f).result,
          (chainAux tryF env (R : Int) (i + 1) f).attempts + 1⟩ := by
      simp [chainAux, h0, hc]
    rw [hstep, hrest]

theorem revertDetected_chainTryRaw (a : ChainAttemptEnv) (h : revertDetectedRaw a) :
    chainTryRaw a = Except.ok false ∨ chainTryRaw a = Except.error ChainErr.revert := by
  obtain ⟨henc, hcase⟩ := h
  rcases hcase with hest | ⟨hne, hsend⟩
  · left; simp [chainTryRaw, henc, hest, gasAfterEst]
  · obtain ⟨g, hg⟩ : ∃ g, gasAfterEst a.est = some g := by
      cases hest : a.est with
      | ok g => exact ⟨g * 120 / 100, by simp [hest, gasAfterEst]⟩
      | timeout => exact ⟨300000, by simp [hest, gasAfterEst]⟩
      | revert => exact absurd hest hne
      | err => exact ⟨200000, by simp [hest, gasAfterEst]⟩
    rcases hsend with hsr | ⟨hok, hwait⟩
    · right; simp [chainTryRaw, henc, hg, hsr]
    · rcases hwait with hwr | ⟨s, hs, hs1⟩
      · right; simp [chainTryRaw, henc, hg, hok, hwr]
      · left; simp [chainTryRaw, henc, hg, hok, hs, hs1]

theorem chainAccepted_eq (c : ChainResult) (b : Bool)
    (h : c.result = Except.ok b) : chainAccepted c = b := by
  cases b <;> simp [chainAccepted, h]

/-! ### Claim theorems for the chain submitter -/

/-- C1.  Gas estimation in the Chain Submitter (`sendRawTransaction`) is
raced against a 10000 ms timer; when the timer fires the gas limit is
exactly 300000 and the submission proceeds exactly as a successful
estimate would; on a simulated revert the submission returns false at
once with no retry; on any other estimation error the gas limit is
exactly 200000 and the submission proceeds; a successful estimate is
inflated to exactly `est * 120 / 100`. -/
theorem chainSubmitter_gas_estimation :
    GAS_ESTIMATE_TIMEOUT_MS = 10000 ∧
    (∀ g, gasAfterEst (EstOutcome.ok g) = some (g * 120 / 100)) ∧
    gasAfterEst EstOutcome.timeout = some 300000 ∧
    gasAfterEst EstOutcome.err = some 200000 ∧
    gasAfterEst EstOutcome.revert = none ∧
    (∀ send wait g, chainTryRaw ⟨true, EstOutcome.timeout, send, wait⟩ =
      chainTryRaw ⟨true, EstOutcome.ok g, send, wait⟩) ∧
    (∀ send wait g, chainTryRaw ⟨true, EstOutcome.err, send, wait⟩ =
      chainTryRaw ⟨true, EstOutcome.ok g, send, wait⟩) ∧
    (∀ (sel par : List Nat) (env : Nat → ChainAttemptEnv) (R : Nat),
      0 < R → (env 0).encodeOk = true → (env 0).est = EstOutcome.revert →
      sendRawTransaction sel par env (R : Int) =
        ⟨Except.ok false, 1, sendRawCalldata sel par⟩) := by
  refine ⟨rfl, fun g => rfl, rfl, rfl, rfl, ?_, ?_, ?_⟩
  · intro send wait g; cases send <;> cases wait <;> rfl
  · intro send wait g; cases send <;> cases wait <;> rfl
  · intro sel par env R hR henc hest
    obtain ⟨r, rfl⟩ : ∃ r, R = r + 1 := ⟨R - 1, by omega⟩
    have h0 : chainTryRaw (env 0) = Except.ok false := by
      simp [chainTryRaw, henc, hest, gasAfterEst]
    have ht : ((r + 1 : Nat) : Int).toNat = r + 1 := Int.toNat_natCast _
    simp [sendRawTransaction, ht, chainAux, h0]

theorem chainSubmitter_gas_estimation_witness :
    0 < 3 ∧
    sendRawTransaction FUNCTION_SELECTORS.SUBMIT_REQUEST [] chainEstRevert ((3 : Nat) : Int) =
      ⟨Except.ok false, 1, sendRawCalldata FUNCTION_SELECTORS.SUBMIT_REQUEST []⟩ :=
  ⟨by decide,
    chainSubmitter_gas_estimation.2.2.2.2.2.2.2
      FUNCTION_SELECTORS.SUBMIT_REQUEST [] chainEstRevert 3 (by decide) rfl rfl⟩

/-- C2.  Once the Chain Submitter detects a revert — a simulated revert
during estimation, a revert-classified rejection at broadcast or while
waiting for the receipt, or a mined receipt with a failure status — the
call resolves false after that very attempt: no further attempt is
issued, no matter how much retry budget remains. -/
theorem chainSubmitter_revert_terminal (sel par : List Nat)
    (env : Nat → ChainAttemptEnv) (R k : Nat)
    (hk : k < R)
    (htrans : ∀ j, j < k → chainTryRaw (env j) = Except.error ChainErr.other)
    (hrev : revertDetectedRaw (env k)) :
    (sendRawTransaction sel par env (R : Int)).result = Except.ok false ∧
    (sendRawTransaction sel par env (R : Int)).attempts = k + 1 := by
  have hstop := revertDetected_chainTryRaw (env k) hrev
  have hne : chainTryRaw (env k) ≠ Except.error ChainErr.other := by
    rcases hstop with h | h <;> simp [h]
  have h0 := chainAux_stop chainTryRaw env R k 0 R (by omega) (by omega)
    (fun j hj => by simpa using htrans j hj)
    (by simpa using hne)
  simp only [Nat.zero_add] at h0
  have hco : catchOut (chainTryRaw (env k)) = Except.ok false := by
    rcases hstop with h | h <;> rw [h] <;> rfl
  have ht : ((R : Nat) : Int).toNat = R := Int.toNat_natCast _
  constructor
  · show (chainAux chainTryRaw env ((R : Nat) : Int) 0 ((R : Nat) : Int).toNat).result =
      Except.ok false
    rw [ht, h0, hco]
  · show (chainAux chainTryRaw env ((R : Nat) : Int) 0 ((R : Nat) : Int).toNat).attempts = k + 1
    rw [ht, h0]

theorem chainSubmitter_revert_terminal_witness :
    (0 : Nat) < 3 ∧
    ((sendRawTransaction FUNCTION_SELECTORS.SUBMIT_AGENT [] chainWaitRevert
        ((3 : Nat) : Int)).result = Except.ok false ∧
      (sendRawTransaction FUNCTION_SELECTORS.SUBMIT_AGENT [] chainWaitRevert
        ((3 : Nat) : Int)).attempts = 0 + 1) :=
  ⟨by decide,
    chainSubmitter_revert_terminal FUNCTION_SELECTORS.SUBMIT_AGENT [] chainWaitRevert 3 0
      (by decide) (fun j hj => absurd hj (Nat.not_lt_zero j))
      ⟨rfl, Or.inr ⟨by decide, Or.inr ⟨rfl, Or.inl rfl⟩⟩⟩⟩

/-- C10.  Both chain-submission operations are total boolean functions
at their interface: for every environment of estimation, broadcast and
confirmation outcomes, and every retry budget including zero or
negative, they resolve with a boolean and never propagate an exception;
a non-positive budget resolves false after zero attempts. -/
theorem chain_submitters_total :
    (∀ (sel par : List Nat) (env : Nat → ChainAttemptEnv) (retries : Int),
      ∃ b, (sendRawTransaction sel par env retries).result = Except.ok b) ∧
    (∀ (env : Nat → ChainAttemptEnv) (retries : Int),
      ∃ b, (sendTransactionWithRetry env retries).result = Except.ok b) ∧
    (∀ (sel par : List Nat) (env : Nat → ChainAttemptEnv) (retries : Int), retries ≤ 0 →
      sendRawTransaction sel par env retries =
        ⟨Except.ok false, 0, sendRawCalldata sel par⟩) ∧
    (∀ (env : Nat → ChainAttemptEnv) (retries : Int), retries ≤ 0 →
      sendTransactionWithRetry env retries = ⟨Except.ok false, 0⟩) := by
  refine ⟨?_, ?_, ?_, ?_⟩
  · intro sel par env retries
    exact chainAux_isOk chainTryRaw env retries retries.toNat 0
  · intro env retries
    exact chainAux_isOk chainTryContract env retries retries.toNat 0
  · intro sel par env retries h
    have h0 : retries.toNat = 0 := Int.toNat_of_nonpos h
    simp [sendRawTransaction, h0, chainAux]
  · intro env retries h
    have h0 : retries.toNat = 0 := Int.toNat_of_nonpos h
    simp [sendTransactionWithRetry, h0, chainAux]

theorem chain_submitters_total_witness :
    (-1 : Int) ≤ 0 ∧
    sendRawTransaction FUNCTION_SELECTORS.SUBMIT_REQUEST [] chainAllOk (-1) =
      ⟨Except.ok false, 0, sendRawCalldata FUNCTION_SELECTORS.SUBMIT_REQUEST []⟩ :=
  ⟨by decide,
    chain_submitters_total.2.2.1 FUNCTION_SELECTORS.SUBMIT_REQUEST [] chainAllOk (-1) (by decide)⟩

/-! ### Helper lemmas on the request executor loop -/

theorem reqAux_attempts_le (env : Nat → ReqAttemptEnv) (retries : Nat) :
    ∀ (fuel i : Nat), (reqAux env retries i fuel).attempts ≤ fuel := by
  intro fuel
  induction fuel with
  | zero => intro i; exact Nat.le_refl 0
  | succ f ih =>
    intro i
    cases h : attemptEval (env i) with
    | done r => simp [reqAux, h]
    | threw e => simp [reqAux, h]
    | retry e =>
      by_cases hc : i < retries - 1
      · have := ih (i + 1)
        simp only [reqAux, h, hc, if_true]
        omega
      · simp [reqAux, h, hc]

theorem reqAux_attempts_pos (env : Nat → ReqAttemptEnv) (retries : Nat)
    (f i : Nat) : 1 ≤ (reqAux env retries i (f + 1)).attempts := by
  cases h : attemptEval (env i) with
  | done r => simp [reqAux, h]
  | threw e => simp [reqAux, h]
  | retry e =>
    by_cases hc : i < retries - 1
    · simp only [reqAux, h, hc, if_true]
      omega
    · simp [reqAux, h, hc]

theorem reqAux_delays (env : Nat → ReqAttemptEnv) (retries : Nat) :
    ∀ (fuel i : Nat), i + fuel = retries →
      (reqAux env retries i fuel).delays =
        (List.range ((reqAux env retries i fuel).attempts - 1)).map
          (fun j => (i + 1 + j) * 3000) := by
  intro fuel
  induction fuel with
  | zero => intro i _; simp [reqAux]
  | succ f ih =>
    intro i hif
    cases h : attemptEval (env i) with
    | done r => simp [reqAux, h]
    | threw e => simp [reqAux, h]
    | retry e =>
      by_cases hc : i < retries - 1
      · obtain ⟨f2, rfl⟩ : ∃ f2, f = f2 + 1 := ⟨f - 1, by omega⟩
        have hpos := reqAux_attempts_pos env retries f2 (i + 1)
        have hrec := ih (i + 1) (by omega)
        have hstep : reqAux env retries i (f2 + 1 + 1) =
            ⟨(reqAux env retries (i + 1) (f2 + 1)).result,
              (reqAux env retries (i + 1) (f2 + 1)).attempts + 1,
              (i + 1) * 3000 :: (reqAux env retries (i + 1) (f2 + 1)).delays⟩ := by
          conv_lhs => rw [reqAux]
          rw [h]
          simp [hc]
        rw [hstep]
        show (i + 1) * 3000 :: (reqAux env retries (i + 1) (f2 + 1)).delays =
          (List.range ((reqAux env retries (i + 1) (f2 + 1)).attempts + 1 - 1)).map
            (fun j => (i + 1 + j) * 3000)
        rw [hrec]
        obtain ⟨m, hm⟩ : ∃ m, (reqAux env retries (i + 1) (f2 + 1)).attempts = m + 1 :=
          ⟨(reqAux env retries (i + 1) (f2 + 1)).attempts - 1, by omega⟩
        rw [hm]
        simp only [Nat.add_sub_cancel]
        rw [List.range_succ_eq_map, List.map_cons, List.map_map]
        have hhead : (i + 1 + 0) * 3000 = (i + 1) * 3000 := by norm_num
        have htail : (List.range m).map ((fun j => (i + 1 + j) * 3000) ∘ Nat.succ) =
            (List.range m).map (fun j => (i + 1 + 1 + j) * 3000) := by
          apply List.map_congr_left
          intro a _
          show (i + 1 + (a + 1)) * 3000 = (i + 1 + 1 + a) * 3000
          ring
        rw [hhead, htail]
      · simp [reqAux, h, hc]

theorem reqAux_exhaust (env : Nat → ReqAttemptEnv) (retries : Nat) (errs : Nat → JsErr)
    (hall : ∀ i, i < retries → attemptEval (env i) = AttemptOut.retry (errs i)) :
    ∀ (fuel i : Nat), i + fuel = retries → 0 < fuel →
      (reqAux env retries i fuel).result = Except.error (errs (retries - 1)) ∧
      (reqAux env retries i fuel).attempts = fuel := by
  intro fuel
  induction fuel with
  | zero => intro i _ h0; exact absurd h0 (lt_irrefl 0)
  | succ f ih =>
    intro i hif _
    have hi : i < retries := by omega
    have h := hall i hi
    by_cases hc : i < retries - 1
    · have hf : 0 < f := by omega
      have hrec := ih (i + 1) (by omega) hf
      have hstep : reqAux env retries i (f + 1) =
          ⟨(reqAux env retries (i + 1) f).result,
            (reqAux env retries (i + 1) f).attempts + 1,
            (i + 1) * 3000 :: (reqAux env retries (i + 1) f).delays⟩ := by
        simp [reqAux, h, hc]
      rw [hstep]
      exact ⟨hrec.1, by show (reqAux env retries (i + 1) f).attempts + 1 = f + 1; omega⟩
    · have hieq : i = retries - 1 := by omega
      have hstep : reqAux env retries i (f + 1) = ⟨Except.error (errs i), 1, []⟩ := by
        simp [reqAux, h, hc]
      rw [hstep]
      refine ⟨by rw [hieq], ?_⟩
      show (1 : Nat) = f + 1
      omega

theorem reqAux_threw_first (env : Nat → ReqAttemptEnv) (retries : Nat) (e : JsErr)
    (h : attemptEval (env 0) = AttemptOut.threw e) (hr : 0 < retries) :
    requestWithRetry env retries = ⟨Except.error e, 1, []⟩ := by
  obtain ⟨f, rfl⟩ : ∃ f, retries = f + 1 := ⟨retries - 1, by omega⟩
  simp [requestWithRetry, reqAux, h]

/-! ### Claim theorems for the request executor -/

/-- C3, counterexample to the claim as stated: on attempt 0 the call
resolves with a session-expired payload and the re-authentication fails;
the claim says the whole operation fails immediately with no further
attempts, but the code classifies the synthetic re-login error as a
retryable network error, sleeps 3000 ms, runs a second attempt and
returns its successful response. -/
theorem requestWithRetry_reauth_failure_counterexample :
    requestWithRetry c3CounterEnv requestRetriesDefault =
      ⟨Except.ok (some plainResp), 2, [3000]⟩ := by decide

/-- C3, amended.  Each failure event triggers at most one immediate
re-authentication and one reissue.  A re-authentication failure after an
HTTP 401/403 rejection propagates the caught error immediately (no
further attempts); a re-authentication failure after a session-expired
payload instead raises a synthetic error that the catch block of the
same attempt sends down the retry tail, consuming retry budget; a persistent
session-expired signal with failing re-login therefore exhausts the
budget and surfaces as a hard failure after exactly `retries` attempts —
a bounded loop, not an unbounded one. -/
theorem requestWithRetry_reauth_failure_paths :
    (∀ (a : ReqAttemptEnv) (r : ApiResponse), a.call = CallOutcome.ok r →
      sessionExpiredMsg r = true → a.login1 = false →
      attemptEval a = AttemptOut.retry JsErr.reloginFailed) ∧
    (∀ a : ReqAttemptEnv, a.call = CallOutcome.errAuth → a.login1 = false →
      attemptEval a = AttemptOut.threw JsErr.auth) ∧
    (∀ (env : Nat → ReqAttemptEnv) (retries : Nat) (e : JsErr), 0 < retries →
      attemptEval (env 0) = AttemptOut.threw e →
      requestWithRetry env retries = ⟨Except.error e, 1, []⟩) ∧
    (∀ (env : Nat → ReqAttemptEnv) (retries : Nat), 0 < retries →
      (∀ i, i < retries → attemptEval (env i) = AttemptOut.retry JsErr.reloginFailed) →
      (requestWithRetry env retries).result = Except.error JsErr.reloginFailed ∧
      (requestWithRetry env retries).attempts = retries) := by
  refine ⟨?_, ?_, ?_, ?_⟩
  · intro a r hc hs hl
    simp [attemptEval, hc, hs, hl]
  · intro a hc hl
    simp [attemptEval, hc, hl]
  · intro env retries e hr h
    exact reqAux_threw_first env retries e h hr
  · intro env retries hr hall
    have := reqAux_exhaust env retries (fun _ => JsErr.reloginFailed) hall retries 0
      (Nat.zero_add retries) hr
    exact this

theorem requestWithRetry_reauth_failure_paths_witness :
    0 < requestRetriesDefault ∧
    ((requestWithRetry allExpiredNoRelogin requestRetriesDefault).result =
        Except.error JsErr.reloginFailed ∧
      (requestWithRetry allExpiredNoRelogin requestRetriesDefault).attempts =
        requestRetriesDefault) :=
  ⟨by decide,
    requestWithRetry_reauth_failure_paths.2.2.2 allExpiredNoRelogin requestRetriesDefault
      (by decide) (fun i _ => rfl)⟩

/-- C8.  The request executor defaults to a budget of 5 attempts, never
exceeds its budget, sleeps exactly `(attempt index + 1) * 3000` ms
between consecutive attempts (3 s after the first failed attempt, 6 s
after the second, and so on), and when every attempt fails with a
retryable error it propagates the error of the last attempt. -/
theorem requestWithRetry_budget_backoff :
    requestRetriesDefault = 5 ∧
    (∀ (env : Nat → ReqAttemptEnv) (retries : Nat),
      (requestWithRetry env retries).attempts ≤ retries) ∧
    (∀ (env : Nat → ReqAttemptEnv) (retries : Nat),
      (requestWithRetry env retries).delays =
        (List.range ((requestWithRetry env retries).attempts - 1)).map
          (fun j => (j + 1) * 3000)) ∧
    (∀ (env : Nat → ReqAttemptEnv) (retries : Nat) (errs : Nat → JsErr), 0 < retries →
      (∀ i, i < retries → attemptEval (env i) = AttemptOut.retry (errs i)) →
      (requestWithRetry env retries).result = Except.error (errs (retries - 1)) ∧
      (requestWithRetry env retries).attempts = retries) := by
  refine ⟨rfl, ?_, ?_, ?_⟩
  · intro env retries
    exact reqAux_attempts_le env retries retries 0
  · intro env retries
    have := reqAux_delays env retries retries 0 (Nat.zero_add retries)
    rw [requestWithRetry, this]
    apply List.map_congr_left
    intro a _
    ring
  · intro env retries errs hr hall
    exact reqAux_exhaust env retries errs hall retries 0 (Nat.zero_add retries) hr

theorem requestWithRetry_budget_backoff_witness :
    0 < 5 ∧
    ((requestWithRetry allNetFail 5).result = Except.error JsErr.net ∧
      (requestWithRetry allNetFail 5).attempts = 5) :=
  ⟨by decide,
    requestWithRetry_budget_backoff.2.2.2 allNetFail 5 (fun _ => JsErr.net) (by decide)
      (fun i _ => rfl)⟩

/-! ### Helper lemmas on the orchestrator -/

theorem sendRawTransaction_calldata (sel par : List Nat)
    (env : Nat → ChainAttemptEnv) (retries : Int) :
    (sendRawTransaction sel par env retries).calldata = sendRawCalldata sel par := rfl

theorem actionStep_resolves (notDone : Bool) (createEnv : Nat → ReqAttemptEnv)
    (sel : List Nat) (enc : Nat → List Nat) (chainEnv : Nat → ChainAttemptEnv)
    (res : ApiResponse)
    (h : (requestWithRetry createEnv requestRetriesDefault).result = Except.ok (some res)) :
    actionStep notDone createEnv sel enc chainEnv =
      Except.ok
        ((if notDone && createCallOk res &&
            chainAccepted (sendRawTransaction sel (enc (respId res)) chainEnv
              chainRetriesDefault)
          then 1 else 0),
          (if notDone && createCallOk res
            then [⟨sel, sendRawCalldata sel (enc (respId res))⟩] else [])) := by
  cases notDone with
  | false => simp [actionStep]
  | true =>
    obtain ⟨b, hb⟩ := chainAux_isOk chainTryRaw chainEnv chainRetriesDefault
      chainRetriesDefault.toNat 0
    have hres : (sendRawTransaction sel (enc (respId res)) chainEnv
        chainRetriesDefault).result = Except.ok b := hb
    by_cases hc : createCallOk res = true
    · have hacc : chainAccepted (sendRawTransaction sel (enc (respId res)) chainEnv
          chainRetriesDefault) = b := chainAccepted_eq _ _ hres
      cases b with
      | true => simp [actionStep, h, hc, hres, hacc, sendRawTransaction_calldata]
      | false => simp [actionStep, h, hc, hres, hacc, sendRawTransaction_calldata]
    · have hcf : createCallOk res = false := by
        revert hc; cases createCallOk res <;> simp
      simp [actionStep, h, hcf]

theorem actionStep_subs (notDone : Bool) (createEnv : Nat → ReqAttemptEnv)
    (sel : List Nat) (enc : Nat → List Nat) (chainEnv : Nat → ChainAttemptEnv)
    (sub : SubmissionRec)
    (hmem : sub ∈ actionSubs (actionStep notDone createEnv sel enc chainEnv)) :
    ∃ n, sub = ⟨sel, sendRawCalldata sel (enc n)⟩ := by
  by_cases hn : notDone = false
  · simp [actionStep, hn, actionSubs] at hmem
  · have hn2 : notDone = true := by revert hn; cases notDone <;> simp
    cases hq : (requestWithRetry createEnv requestRetriesDefault).result with
    | error e => simp [actionStep, hn2, hq, actionSubs] at hmem
    | ok o =>
      cases o with
      | none => simp [actionStep, hn2, hq, actionSubs] at hmem
      | some res =>
        by_cases hc : createCallOk res = true
        · obtain ⟨b, hb⟩ := chainAux_isOk chainTryRaw chainEnv chainRetriesDefault
            chainRetriesDefault.toNat 0
          have hres : (sendRawTransaction sel (enc (respId res)) chainEnv
              chainRetriesDefault).result = Except.ok b := hb
          simp [actionStep, hn2, hq, hc, hres, actionSubs, sendRawTransaction_calldata] at hmem
          exact ⟨respId res, hmem⟩
        · have hcf : createCallOk res = false := by
            revert hc; cases createCallOk res <;> simp
          simp [actionStep, hn2, hq, hcf, actionSubs] at hmem

theorem runDailyTasks_sub_shape (env : TaskEnv) (sub : SubmissionRec)
    (hmem : sub ∈ (runDailyTasks env).submissions) :
    (∃ n, sub = ⟨FUNCTION_SELECTORS.SUBMIT_REQUEST,
      sendRawCalldata FUNCTION_SELECTORS.SUBMIT_REQUEST
        (abiEncodeUintString n (strBytes env.title))⟩) ∨
    (∃ n, sub = ⟨FUNCTION_SELECTORS.SUBMIT_AGENT,
      sendRawCalldata FUNCTION_SELECTORS.SUBMIT_AGENT
        (abiEncodeUintStringString n (strBytes env.agentName)
          (strBytes env.agentDescChain))⟩) := by
  by_cases hl : env.loginOk = false
  · simp [runDailyTasks, hl] at hmem
  · cases hv : (requestWithRetry env.verifyEnv requestRetriesDefault).result with
    | error e => simp [runDailyTasks, hl, hv] at hmem
    | ok o =>
      cases o with
      | none => simp [runDailyTasks, hl, hv] at hmem
      | some taskRes =>
        cases h1 : actionStep (!((taskRes.data.map RespData.isCreateRequest).getD false))
            env.createReqEnv FUNCTION_SELECTORS.SUBMIT_REQUEST
            (fun n => abiEncodeUintString n (strBytes env.title)) env.reqChainEnv with
        | error subs1 =>
          have hm : sub ∈ subs1 := by
            simpa [runDailyTasks, hl, hv, h1] using hmem
          left
          exact actionStep_subs _ _ _ _ _ sub (by rw [h1]; exact hm)
        | ok out1 =>
          obtain ⟨p1, subs1⟩ := out1
          cases h2 : actionStep (!((taskRes.data.map RespData.isCreateAgent).getD false))
              env.createAgentEnv FUNCTION_SELECTORS.SUBMIT_AGENT
              (fun n => abiEncodeUintStringString n (strBytes env.agentName)
                (strBytes env.agentDescChain))
              env.agentChainEnv with
          | error subs2 =>
            have hm : sub ∈ subs1 ++ subs2 := by
              simpa [runDailyTasks, hl, hv, h1, h2] using hmem
            rcases List.mem_append.mp hm with hm2 | hm2
            · left
              exact actionStep_subs _ _ _ _ _ sub (by rw [h1]; exact hm2)
            · right
              exact actionStep_subs _ _ _ _ _ sub (by rw [h2]; exact hm2)
          | ok out2 =>
            obtain ⟨p2, subs2⟩ := out2
            have hm : sub ∈ subs1 ++ subs2 := by
              simpa [runDailyTasks, hl, hv, h1, h2] using hmem
            rcases List.mem_append.mp hm with hm2 | hm2
            · left
              exact actionStep_subs _ _ _ _ _ sub (by rw [h1]; exact hm2)
            · right
              exact actionStep_subs _ _ _ _ _ sub (by rw [h2]; exact hm2)

theorem lookup_dbSet (db : Store) (k : String) (v : Nat) (k2 : String) :
    List.lookup k2 (dbSet db k v) =
      if k2 = k then some v else List.lookup k2 db := by
  induction db with
  | nil =>
    by_cases h : k2 = k
    · have hb : (k2 == k) = true := beq_iff_eq.mpr h
      simp [dbSet, List.lookup, h, hb]
    · have hb : (k2 == k) = false := beq_eq_false_iff_ne.mpr h
      simp [dbSet, List.lookup, h, hb]
  | cons p rest ih =>
    obtain ⟨k0, v0⟩ := p
    by_cases h0 : k0 = k
    · subst h0
      by_cases h2 : k2 = k0
      · have hb : (k2 == k0) = true := beq_iff_eq.mpr h2
        simp [dbSet, List.lookup, h2, hb]
      · have hb : (k2 == k0) = false := beq_eq_false_iff_ne.mpr h2
        simp [dbSet, List.lookup, h2, hb]
    · by_cases h2 : k2 = k0
      · have hb : (k2 == k0) = true := beq_iff_eq.mpr h2
        have hne : ¬(k2 = k) := fun he => h0 (h2.symm.trans he)
        simp [dbSet, h0, List.lookup, hb, hne]
      · have hb : (k2 == k0) = false := beq_eq_false_iff_ne.mpr h2
        simp [dbSet, h0, List.lookup, hb, ih]

/-! ### Claim theorems for the orchestrator and the run loop -/

/-- C4.  When login succeeds, the verify call resolves, and each
invoked create call resolves, the cycle ends in success; an action is
counted as performed exactly when its create call succeeds (code 0 and a
truthy created id) and its on-chain submission succeeds; the terminal
status is Work Done exactly when at least one action was performed and
Already Done exactly otherwise — a failed on-chain submission of one
action blocks neither the other action nor the overall success. -/
theorem runDailyTasks_action_accounting (env : TaskEnv) (vres rres ares : ApiResponse)
    (hl : env.loginOk = true)
    (hv : (requestWithRetry env.verifyEnv requestRetriesDefault).result =
      Except.ok (some vres))
    (hr : (requestWithRetry env.createReqEnv requestRetriesDefault).result =
      Except.ok (some rres))
    (ha : (requestWithRetry env.createAgentEnv requestRetriesDefault).result =
      Except.ok (some ares)) :
    (runDailyTasks env).success = true ∧
    ((runDailyTasks env).status = "Work Done" ↔
      0 < specPerformedCount env vres rres ares) ∧
    ((runDailyTasks env).status = "Already Done" ↔
      specPerformedCount env vres rres ares = 0) := by
  have e1 := actionStep_resolves (!((vres.data.map RespData.isCreateRequest).getD false))
    env.createReqEnv FUNCTION_SELECTORS.SUBMIT_REQUEST
    (fun n => abiEncodeUintString n (strBytes env.title)) env.reqChainEnv rres hr
  have e2 := actionStep_resolves (!((vres.data.map RespData.isCreateAgent).getD false))
    env.createAgentEnv FUNCTION_SELECTORS.SUBMIT_AGENT
    (fun n => abiEncodeUintStringString n (strBytes env.agentName)
      (strBytes env.agentDescChain))
    env.agentChainEnv ares ha
  have hX : (runDailyTasks env).success = true ∧
      (runDailyTasks env).status =
        (if 0 < specPerformedCount env vres rres ares
          then "Work Done" else "Already Done") := by
    simp only [runDailyTasks, hl, hv, e1, e2, specPerformedCount]
    exact ⟨rfl, rfl⟩
  refine ⟨hX.1, ?_, ?_⟩ <;> rw [hX.2] <;>
    by_cases hp : 0 < specPerformedCount env vres rres ares <;>
    simp [hp] <;> omega

theorem runDailyTasks_action_accounting_witness :
    c4Env.loginOk = true ∧
    ((runDailyTasks c4Env).success = true ∧
      (runDailyTasks c4Env).status = "Work Done") := by
  have h := runDailyTasks_action_accounting c4Env verifyNotDone (respWithId 42)
    (respWithId 99) rfl rfl rfl rfl
  exact ⟨rfl, h.1, h.2.1.mpr (by decide)⟩

/-- C5.  Every transaction request the Chain Submitter issues carries
calldata that is exactly the fixed 4-byte selector followed by the
ABI-encoded parameter values; every submission the orchestrator makes
uses one of the two literal selector constants (no function-name
resolution), and the first 4 bytes of its calldata are that selector. -/
theorem calldata_selector_first :
    (∀ (sel par : List Nat) (env : Nat → ChainAttemptEnv) (retries : Int),
      (sendRawTransaction sel par env retries).calldata = sel ++ par) ∧
    (∀ (env : TaskEnv) (sub : SubmissionRec), sub ∈ (runDailyTasks env).submissions →
      (∃ n, sub = ⟨FUNCTION_SELECTORS.SUBMIT_REQUEST,
        sendRawCalldata FUNCTION_SELECTORS.SUBMIT_REQUEST
          (abiEncodeUintString n (strBytes env.title))⟩) ∨
      (∃ n, sub = ⟨FUNCTION_SELECTORS.SUBMIT_AGENT,
        sendRawCalldata FUNCTION_SELECTORS.SUBMIT_AGENT
          (abiEncodeUintStringString n (strBytes env.agentName)
            (strBytes env.agentDescChain))⟩)) ∧
    (∀ (env : TaskEnv) (sub : SubmissionRec), sub ∈ (runDailyTasks env).submissions →
      sub.calldata.take 4 = sub.selector) := by
  refine ⟨fun sel par env retries => rfl, runDailyTasks_sub_shape, ?_⟩
  intro env sub hmem
  rcases runDailyTasks_sub_shape env sub hmem with ⟨n, rfl⟩ | ⟨n, rfl⟩ <;> rfl

theorem calldata_selector_first_witness :
    c5Sub ∈ (runDailyTasks c5Env).submissions ∧
    List.take 4 c5Sub.calldata = c5Sub.selector := by
  have hmem : c5Sub ∈ (runDailyTasks c5Env).submissions := by
    have h : (runDailyTasks c5Env).submissions = [c5Sub] := by decide
    rw [h]
    exact List.mem_cons_self _ _
  exact ⟨hmem, calldata_selector_first.2.2 c5Env c5Sub hmem⟩

/-- C6.  A failed login ends the cycle at once with a failure outcome
and status Login Failed, and the cooldown store is left unchanged by the
run loop for that account (the store is written only after a successful
cycle). -/
theorem loginFailed_outcome (db : Store) (e : AccountStepEnv) (interval : Nat)
    (h : e.taskEnv.loginOk = false) :
    runDailyTasks e.taskEnv = ⟨false, none, "Login Failed", []⟩ ∧
    (processAccount db e interval).1 = db := by
  have h1 : runDailyTasks e.taskEnv = ⟨false, none, "Login Failed", []⟩ := by
    simp [runDailyTasks, h]
  refine ⟨h1, ?_⟩
  unfold processAccount
  by_cases hc : e.nowCheck < getNextRunTime db e.addr
  · simp [hc]
  · simp [hc, h1]

theorem loginFailed_outcome_witness :
    c9StepRun.taskEnv.loginOk = false ∧
    (runDailyTasks c9StepRun.taskEnv = ⟨false, none, "Login Failed", []⟩ ∧
      (processAccount c9Db c9StepRun 0).1 = c9Db) :=
  ⟨rfl, loginFailed_outcome c9Db c9StepRun 0 rfl⟩

/-- C7.  The cooldown store maps absent entries to 0 (eligible now); the
run loop updates the entry of an identity only when the clock has reached the
previously stored value and only after a successful cycle, writing the
current time plus the loop interval; consequently the stored next
eligible time is monotonically non-decreasing across every account
iteration. -/
theorem cooldown_store_invariants :
    (∀ (db : Store) (addr : String), List.lookup (toLowerCase addr) db = none →
      getNextRunTime db addr = 0) ∧
    (∀ addr, getNextRunTime [] addr = 0) ∧
    (∀ (db : Store) (e : AccountStepEnv) (interval : Nat),
      e.nowCheck < getNextRunTime db e.addr → (processAccount db e interval).1 = db) ∧
    (∀ (db : Store) (e : AccountStepEnv) (interval : Nat),
      (runDailyTasks e.taskEnv).success = false → (processAccount db e interval).1 = db) ∧
    (∀ (db : Store) (e : AccountStepEnv) (interval : Nat),
      getNextRunTime db e.addr ≤ e.nowCheck →
      (runDailyTasks e.taskEnv).success = true →
      (processAccount db e interval).1 =
        updateNextRunTime db e.addr (e.nowUpdate + interval)) ∧
    (∀ (db : Store) (e : AccountStepEnv) (interval : Nat) (addr2 : String),
      e.nowCheck ≤ e.nowUpdate →
      getNextRunTime db addr2 ≤ getNextRunTime ((processAccount db e interval).1) addr2) := by
  refine ⟨?_, ?_, ?_, ?_, ?_, ?_⟩
  · intro db addr h
    simp [getNextRunTime, h]
  · intro addr
    simp [getNextRunTime]
  · intro db e interval hc
    simp [processAccount, hc]
  · intro db e interval hs
    unfold processAccount
    by_cases hc : e.nowCheck < getNextRunTime db e.addr
    · simp [hc]
    · simp [hc, hs]
  · intro db e interval hc hs
    have hc2 : ¬(e.nowCheck < getNextRunTime db e.addr) := by omega
    simp [processAccount, hc2, hs]
  · intro db e interval addr2 hnow
    unfold processAccount
    by_cases hc : e.nowCheck < getNextRunTime db e.addr
    · simp [hc]
    · by_cases hs : (runDailyTasks e.taskEnv).success = true
      · simp only [hc, if_false, hs, if_true]
        show getNextRunTime db addr2 ≤
          getNextRunTime (updateNextRunTime db e.addr (e.nowUpdate + interval)) addr2
        unfold getNextRunTime updateNextRunTime
        rw [lookup_dbSet]
        by_cases he : toLowerCase addr2 = toLowerCase e.addr
        · rw [if_pos he]
          have hle : (List.lookup (toLowerCase addr2) db).getD 0 ≤ e.nowCheck := by
            rw [he]
            exact Nat.le_of_not_lt hc
          simp only [Option.getD_some]
          omega
        · rw [if_neg he]
      · have hs2 : (runDailyTasks e.taskEnv).success = false := by
          revert hs; cases (runDailyTasks e.taskEnv).success <;> simp
        simp [hc, hs2]

theorem cooldown_store_invariants_witness :
    c7Step.nowCheck ≤ c7Step.nowUpdate ∧
    getNextRunTime c9Db "0xa" ≤
      getNextRunTime ((processAccount c9Db c7Step 1000).1) "0xa" :=
  ⟨by decide, cooldown_store_invariants.2.2.2.2.2 c9Db c7Step 1000 "0xa" (by decide)⟩

/-- C9, counterexample to the claim as stated: an account skipped on
cooldown `continue`s past the inter-account sleep, so no 2-second pause
is observed after it — the claim says the pause is observed regardless
of outcome, including a cooldown skip. -/
theorem interAccountPause_counterexample :
    (processAccount c9Db c9Step 1000).2.2 = [] ∧
    (processAccount c9Db c9Step 1000).2.1 = SummaryRow.skipped 100 :=
  ⟨by decide, by decide⟩

/-- C9, amended.  The fixed 2000 ms inter-account pause is observed
after every account whose cycle actually runs, whether it succeeds or
fails; an account skipped on cooldown proceeds to the next account with
no pause. -/
theorem interAccountPause_amended (db : Store) (e : AccountStepEnv) (interval : Nat) :
    (e.nowCheck < getNextRunTime db e.addr → (processAccount db e interval).2.2 = []) ∧
    (getNextRunTime db e.addr ≤ e.nowCheck →
      (processAccount db e interval).2.2 = [2000]) := by
  constructor
  · intro h
    simp [processAccount, h]
  · intro h
    have hc : ¬(e.nowCheck < getNextRunTime db e.addr) := by omega
    unfold processAccount
    by_cases hs : (runDailyTasks e.taskEnv).success = true
    · simp [hc, hs]
    · have hs2 : (runDailyTasks e.taskEnv).success = false := by
        revert hs; cases (runDailyTasks e.taskEnv).success <;> simp
      simp [hc, hs2]

theorem interAccountPause_amended_witness :
    (processAccount c9Db c9Step 1000).2.2 = [] ∧
    (processAccount c9Db c9StepRun 1000).2.2 = [2000] :=
  ⟨(interAccountPause_amended c9Db c9Step 1000).1 (by decide),
    (interAccountPause_amended c9Db c9StepRun 1000).2 (by decide)⟩

end Sipal
